import Mathlib

/-!
Shallow embedding of the dusty-room WAD container layer and asset decoders.

Source files embedded (paths relative to the repository root):
  - src/wad/name.rs     : lump-name codec (parse_name, NameExt::is_legal)
  - src/wad/file.rs     : WadFile (read_header, read_directory, try_lump_index,
                          try_lump, lump, try_lumps_following, try_lumps_between)
  - src/wad/wad.rs      : Wad stack overlay (lookup, try_lookup, lump, patch)
  - src/assets/palette.rs : PaletteBank::load
  - src/assets/patch.rs   : Patch::load, Patch::read_column
  - src/map/{vertex,sector,sidedef,linedef,map}.rs : map loaders

Bytes are modelled as natural numbers reduced mod 256 at every read site, so a
u8 read of byte b yields b % 256, exactly the value a Rust u8 holds.  Strings
are modelled as lists of byte values (Latin-1 codepoints coincide with bytes).
-/

deriving instance DecidableEq for Except

/-- Byte at index i of a buffer (reads past the end never occur on the guarded
paths; the default 0 is irrelevant there).  The mod 256 models the u8 type. -/
def byteAt (data : List Nat) (i : Nat) : Nat := data.getD i 0 % 256

/-- Little-endian u16 at index i, as in `get_u16_le` / `read_u16::<LittleEndian>`. -/
def u16At (data : List Nat) (i : Nat) : Nat :=
  byteAt data i + 256 * byteAt data (i + 1)

/-- Little-endian u32 at index i, as in `get_u32_le` / `read_u32::<LittleEndian>`. -/
def u32At (data : List Nat) (i : Nat) : Nat :=
  byteAt data i + 256 * byteAt data (i + 1) + 65536 * byteAt data (i + 2) +
    16777216 * byteAt data (i + 3)

/-- Reinterpret a u16 value as an i16 (two's complement). -/
def toInt16 (v : Nat) : Int := if v < 32768 then (v : Int) else (v : Int) - 65536

/-- Little-endian i16 at index i, as in `get_i16_le` / `read_i16::<LittleEndian>`. -/
def i16At (data : List Nat) (i : Nat) : Int := toInt16 (u16At data i)

/-- Legal lump-name characters per `NameExt::is_legal` (src/wad/name.rs):
the letters A-Z (65..90), digits 0-9 (48..57), and the punctuation
left bracket 91, right bracket 93, hyphen 45, underscore 95, backslash 92. -/
def isLegalChar (c : Nat) : Bool :=
  (65 ≤ c && c ≤ 90) || (48 ≤ c && c ≤ 57) || c == 91 || c == 93 || c == 45 ||
    c == 95 || c == 92

/-- Embeds `NameExt::is_legal` (src/wad/name.rs): nonempty, at most 8 characters,
every character legal. -/
def isLegalName (name : List Nat) : Bool :=
  !name.isEmpty && name.length ≤ 8 && name.all isLegalChar

/-- Embeds `parse_name` (src/wad/name.rs): split the 8 raw bytes at the first NUL;
if all 8 raw bytes are ASCII the stripped name is returned as `ok`, otherwise
the stripped bytes are returned as `error` (the Latin-1 decoding of a byte
list is the byte list itself in this model). -/
def parseName (raw : List Nat) : Except (List Nat) (List Nat) :=
  let stripped := raw.takeWhile (· ≠ 0)
  if raw.all (· ≤ 127) then .ok stripped else .error stripped

/-- NUL-pad a name to 8 bytes, the directory encoding of a lump name. -/
def padTo8 (name : List Nat) : List Nat :=
  name ++ List.replicate (8 - name.length) 0

/-- Embeds `make_ascii_uppercase` on one byte: a-z (97..122) map to A-Z. -/
def upperByte (b : Nat) : Nat := if 97 ≤ b && b ≤ 122 then b - 32 else b

/-- Uppercase a name, as `try_lump_index` (src/wad/file.rs) does to its
argument before lookup. (The source uppercases only when a lowercase letter is
present; mapping unconditionally yields the same name.) -/
def upperName (name : List Nat) : List Nat := name.map upperByte

/-- WAD files can be either IWADs or PWADs (src/wad/file.rs `WadKind`). -/
inductive WadKind where
  | iwad
  | pwad
  deriving DecidableEq, Repr

/-- A directory entry (src/wad/file.rs `LumpLocation`). -/
structure LumpLocation where
  offset : Nat
  size : Nat
  name : List Nat
  deriving DecidableEq, Repr

/-- A loaded WAD file (src/wad/file.rs `WadFile`). The name-to-indices
multimap is recomputed on demand by `indicesOf` below rather than stored. -/
structure WadFile where
  raw : List Nat
  kind : WadKind
  locations : List LumpLocation
  deriving DecidableEq, Repr

/-- A lump view (src/wad/lump.rs `Lump`): a name plus the referenced bytes. -/
structure Lump where
  name : List Nat
  data : List Nat
  deriving DecidableEq, Repr

/-- Structured stand-ins for the `wad::Error::Malformed` descriptions the
container layer produces (src/wad/file.rs, src/wad/error.rs). Each
constructor corresponds to one `format!` message. -/
inductive WErr where
  | notWad
  | badDirOffset (off : Nat)
  | badCount
  | badName (name : List Nat)
  | badOffset (name : List Nat) (off : Nat)
  | badSize (name : List Nat) (size : Nat)
  | missing (name : List Nat)
  | bothMissing (a b : List Nat)
  | foundTimes (name : List Nat) (count : Nat)
  | missingLumps (name : List Nat)
  | without (a b : List Nat)
  | after (a b : List Nat)
  | badMultiple (name : List Nat) (size : Nat)
  deriving DecidableEq, Repr

/-- Embeds `WadFile::read_header` (src/wad/file.rs): needs 12 bytes, magic IWAD or
PWAD, then little-endian u32 lump count and directory offset. -/
def readHeader (raw : List Nat) : Except WErr (WadKind × Nat × Nat) :=
  if raw.length < 12 then .error .notWad
  else if raw.take 4 = [73, 87, 65, 68] then .ok (.iwad, u32At raw 4, u32At raw 8)
  else if raw.take 4 = [80, 87, 65, 68] then .ok (.pwad, u32At raw 4, u32At raw 8)
  else .error .notWad

/-- The 8 name bytes of a 16-byte directory entry, stripped at the first NUL
(`parse_name` applied to entry bytes 8..16 in `read_directory`). -/
def entryName (cursor : List Nat) : List Nat :=
  (((cursor.drop 8).take 8).map (· % 256)).takeWhile (· ≠ 0)

/-- One iteration of the `read_directory` loop (src/wad/file.rs lines
179-207): need 16 bytes, parse (u32 offset, u32 size, 8-byte name), reject
illegal names, then the two bounds checks exactly as written in the source:
`offset >= raw.len()` is an error and `offset + size >= raw.len()` is an
error (both comparisons are the source's, strict on acceptance). -/
def readEntry (raw cursor : List Nat) : Except WErr LumpLocation :=
  if cursor.length < 16 then .error .badCount
  else if !isLegalName (entryName cursor) then
    .error (.badName (entryName cursor))
  else if raw.length ≤ u32At cursor 0 then
    .error (.badOffset (entryName cursor) (u32At cursor 0))
  else if raw.length ≤ u32At cursor 0 + u32At cursor 4 then
    .error (.badSize (entryName cursor) (u32At cursor 4))
  else .ok ⟨u32At cursor 0, u32At cursor 4, entryName cursor⟩

/-- The `read_directory` entry loop: `count` entries, cursor advancing 16
bytes per entry. -/
def readEntries (raw cursor : List Nat) : Nat → Except WErr (List LumpLocation)
  | 0 => .ok []
  | n + 1 =>
    match readEntry raw cursor with
    | .error e => .error e
    | .ok loc =>
      match readEntries raw (cursor.drop 16) n with
      | .error e => .error e
      | .ok locs => .ok (loc :: locs)

/-- Embeds `WadFile::read_directory` (src/wad/file.rs): `raw.get(directory_offset..)`
succeeds exactly when the offset is at most the buffer length, then the entry
loop runs. -/
def readDirectory (raw : List Nat) (count off : Nat) : Except WErr (List LumpLocation) :=
  if off ≤ raw.length then readEntries raw (raw.drop off) count
  else .error (.badDirOffset off)

/-- Embeds `WadFile::load_raw` on an in-memory buffer (src/wad/file.rs
`load_raw_impl`): header, then directory. -/
def loadRaw (raw : List Nat) : Except WErr WadFile :=
  match readHeader raw with
  | .error e => .error e
  | .ok (kind, count, dirOff) =>
    match readDirectory raw count dirOff with
    | .error e => .error e
    | .ok locs => .ok ⟨raw, kind, locs⟩

/-- The indices at which `name` occurs in the directory, in ascending order:
the `lump_indices` multimap entry for `name` (src/wad/file.rs lines 209-217;
an absent key and an empty list both mean "name not present"). -/
def indicesOf (locs : List LumpLocation) (name : List Nat) : List Nat :=
  (List.range locs.length).filter fun i => (locs.getD i ⟨0, 0, []⟩).name = name

/-- The bytes of lump number i: `raw.slice(offset..offset + size)`
(src/wad/file.rs `read_lump`). -/
def lumpData (f : WadFile) (i : Nat) : List Nat :=
  let loc := f.locations.getD i ⟨0, 0, []⟩
  (f.raw.drop loc.offset).take loc.size

/-- Embeds `WadFile::read_lump` (src/wad/file.rs): the lump view of entry i. -/
def readLump (f : WadFile) (i : Nat) : Lump :=
  ⟨(f.locations.getD i ⟨0, 0, []⟩).name, lumpData f i⟩

/-- Embeds `self.lump_indices.len()`: the number of distinct lump names in the
directory. -/
def distinctCount (f : WadFile) : Nat :=
  ((f.locations.map LumpLocation.name).dedup).length

/-- Helper for `Vec::dedup_by` with byte-for-byte equality: drop each element
equal to the previously kept one. -/
def dedupAdjGo (prev : List Nat) : List (List Nat) → List (List Nat)
  | [] => []
  | b :: rest => if b = prev then dedupAdjGo prev rest else b :: dedupAdjGo b rest

/-- Embeds `lumps.dedup_by(|l1, l2| l1.data() == l2.data())`: collapse consecutive
runs of equal elements, keeping the first of each run. -/
def dedupAdj : List (List Nat) → List (List Nat)
  | [] => []
  | a :: rest => a :: dedupAdjGo a rest

/-- Embeds `WadFile::try_lump_index` (src/wad/file.rs lines 382-411): uppercase the
name; no occurrence yields none, a unique occurrence yields its index, and
for several occurrences the referenced lumps are read and deduplicated
byte-for-byte; if exactly one distinct content remains and it is nonempty the
last index is returned, otherwise the "found N times" error. -/
def tryLumpIndex (f : WadFile) (name : List Nat) : Except WErr (Option Nat) :=
  match indicesOf f.locations (upperName name) with
  | [] => .ok none
  | [i] => .ok (some i)
  | i :: j :: rest =>
    if (dedupAdj ((i :: j :: rest).map (lumpData f))).length = 1 &&
        (dedupAdj ((i :: j :: rest).map (lumpData f))).headD [] ≠ [] then
      .ok (some ((i :: j :: rest).getLastD 0))
    else
      .error (.foundTimes (upperName name) (i :: j :: rest).length)

/-- Embeds `WadFile::try_lump` (src/wad/file.rs). -/
def tryLump (f : WadFile) (name : List Nat) : Except WErr (Option Lump) :=
  match tryLumpIndex f name with
  | .error e => .error e
  | .ok none => .ok none
  | .ok (some i) => .ok (some (readLump f i))

/-- Embeds `WadFile::lump` (src/wad/file.rs): like `try_lump` but a missing lump is
an error naming the requested lump. -/
def fileLump (f : WadFile) (name : List Nat) : Except WErr Lump :=
  match tryLump f name with
  | .error e => .error e
  | .ok none => .error (.missing name)
  | .ok (some l) => .ok l

/-- Result of an operation that may panic (`assert!(size > 0)` in
`try_lumps_following`). -/
inductive PanicOr (α : Type) where
  | panicked
  | value (a : α)
  deriving DecidableEq, Repr

/-- Body of `WadFile::try_lumps_following` (src/wad/file.rs lines 293-311)
after the assertion: resolve the marker; a missing marker is `none`; then the
source's guard `start_index + size >= self.lump_indices.len()` — the number
of DISTINCT names, compared non-strictly — errors, else the block of `size`
lumps starting at the marker is read. -/
def tryLumpsFollowingCore (f : WadFile) (start : List Nat) (size : Nat) :
    Except WErr (Option (List Lump)) :=
  match tryLumpIndex f start with
  | .error e => .error e
  | .ok none => .ok none
  | .ok (some i) =>
    if distinctCount f ≤ i + size then .error (.missingLumps start)
    else .ok (some ((List.range' i size).map (readLump f)))

/-- Embeds `WadFile::try_lumps_following` including its `assert!(size > 0)`. -/
def tryLumpsFollowing (f : WadFile) (start : List Nat) (size : Nat) :
    PanicOr (Except WErr (Option (List Lump))) :=
  if size = 0 then .panicked else .value (tryLumpsFollowingCore f start size)

/-- Body of the earlier revision `WadFile::try_lumps_following`
(src/assets/wad/file.rs lines 240-254): identical except the guard compares
against `self.lumps.len()`, the total lump count, still non-strictly. -/
def tryLumpsFollowingOldCore (f : WadFile) (start : List Nat) (size : Nat) :
    Except WErr (Option (List Lump)) :=
  match tryLumpIndex f start with
  | .error e => .error e
  | .ok none => .ok none
  | .ok (some i) =>
    if f.locations.length ≤ i + size then .error (.missingLumps start)
    else .ok (some ((List.range' i size).map (readLump f)))

/-- The earlier revision of `try_lumps_following` with its assertion. -/
def tryLumpsFollowingOld (f : WadFile) (start : List Nat) (size : Nat) :
    PanicOr (Except WErr (Option (List Lump))) :=
  if size = 0 then .panicked else .value (tryLumpsFollowingOldCore f start size)

/-- Embeds `WadFile::lumps_following`: `try_lumps_following` with a missing marker
turned into an error. -/
def lumpsFollowing (f : WadFile) (start : List Nat) (size : Nat) :
    PanicOr (Except WErr (List Lump)) :=
  match tryLumpsFollowing f start size with
  | .panicked => .panicked
  | .value (.error e) => .value (.error e)
  | .value (.ok none) => .value (.error (.missing start))
  | .value (.ok (some ls)) => .value (.ok ls)

/-- Embeds `WadFile::try_lumps_between` (src/wad/file.rs lines 328-360): resolve
both markers; both absent is `none`, one absent is a "without" error, start
after end is an "after" error, else the inclusive range start..end. -/
def tryLumpsBetween (f : WadFile) (start stop : List Nat) :
    Except WErr (Option (List Lump)) :=
  match tryLumpIndex f start with
  | .error e => .error e
  | .ok si =>
    match tryLumpIndex f stop with
    | .error e => .error e
    | .ok ei =>
      match si, ei with
      | none, none => .ok none
      | some _, none => .error (.without start stop)
      | none, some _ => .error (.without stop start)
      | some i, some j =>
        if i > j then .error (.after start stop)
        else .ok (some ((List.range' i (j + 1 - i)).map (readLump f)))

/-- Embeds `WadFile::lumps_between`: the try-variant with both-markers-missing
turned into an error. -/
def lumpsBetween (f : WadFile) (start stop : List Nat) : Except WErr (List Lump) :=
  match tryLumpsBetween f start stop with
  | .error e => .error e
  | .ok none => .error (.bothMissing start stop)
  | .ok (some ls) => .ok ls

/-- The WAD stack (src/wad/wad.rs `Wad`): one initial file plus ordered
patches. -/
structure Wad where
  initial : WadFile
  patches : List WadFile
  deriving DecidableEq, Repr

/-- The loop of `Wad::lookup` / `Wad::try_lookup` (src/wad/wad.rs lines
169-194) over an explicit list of patches, already reversed: the first patch
whose try-lookup yields `some` (or an error) decides; when every patch yields
`none` the initial file's lookup decides. -/
def lookupList {α : Type} (tf : WadFile → Except WErr (Option α))
    (lf : WadFile → Except WErr α) (ini : WadFile) :
    List WadFile → Except WErr α
  | [] => lf ini
  | p :: rest =>
    match tf p with
    | .error e => .error e
    | .ok (some v) => .ok v
    | .ok none => lookupList tf lf ini rest

/-- Embeds `Wad::lookup` (src/wad/wad.rs): patches are consulted from last to
first. -/
def wadLookup {α : Type} (w : Wad) (tf : WadFile → Except WErr (Option α))
    (lf : WadFile → Except WErr α) : Except WErr α :=
  lookupList tf lf w.initial w.patches.reverse

/-- Embeds `Wad::try_lookup` (src/wad/wad.rs): the same last-to-first walk —
a patch's `ok none` moves on to the next file — but when every patch misses
the initial file is consulted with the try-variant as well, so the walk's
"found" value is the `some` case of the try result. -/
def wadTryLookup {α : Type} (w : Wad) (tf : WadFile → Except WErr (Option α)) :
    Except WErr (Option α) :=
  wadLookup w (fun f => Except.map (Option.map some) (tf f)) tf

/-- Embeds `Wad::lump` (src/wad/wad.rs). -/
def wadLump (w : Wad) (name : List Nat) : Except WErr Lump :=
  wadLookup w (fun f => tryLump f name) (fun f => fileLump f name)

/-- Embeds `Wad::try_lump` (src/wad/wad.rs). -/
def wadTryLump (w : Wad) (name : List Nat) : Except WErr (Option Lump) :=
  wadTryLookup w (fun f => tryLump f name)

/-- Embeds `Wad::lumps_between` (src/wad/wad.rs). -/
def wadLumpsBetween (w : Wad) (start stop : List Nat) : Except WErr (List Lump) :=
  wadLookup w (fun f => tryLumpsBetween f start stop)
    (fun f => lumpsBetween f start stop)

/-- Embeds `Wad::lumps_following` (src/wad/wad.rs). Every file's try-variant asserts
`size > 0` and the initial file is always present, so the assertion is
equivalently hoisted in front of the walk. -/
def wadLumpsFollowing (w : Wad) (start : List Nat) (size : Nat) :
    PanicOr (Except WErr (List Lump)) :=
  if size = 0 then .panicked
  else .value (wadLookup w (fun f => tryLumpsFollowingCore f start size)
    (fun f =>
      match tryLumpsFollowingCore f start size with
      | .error e => .error e
      | .ok none => .error (.missing start)
      | .ok (some ls) => .ok ls))

/-- Embeds `Wad::try_lumps_following` (src/wad/wad.rs), assertion hoisted as above. -/
def wadTryLumpsFollowing (w : Wad) (start : List Nat) (size : Nat) :
    PanicOr (Except WErr (Option (List Lump))) :=
  if size = 0 then .panicked
  else .value (wadTryLookup w (fun f => tryLumpsFollowingCore f start size))

/-- Embeds `Wad::patch` / `Wad::add` (src/wad/wad.rs): a new stack with one more
patch appended (kind checking happens before this point and is not part of
the lookup semantics). -/
def wadPatch (w : Wad) (f : WadFile) : Wad :=
  ⟨w.initial, w.patches ++ [f]⟩

/-- Split a buffer into complete chunks of `k` bytes plus the remainder, with
explicit fuel (`chunks_exact` keeps the complete chunks; the loaders that
walk a cursor record-by-record behave identically, see the loaders below).
Fuel at least `data.length + 1` always suffices since `k ≥ 1` at every use
site. -/
def chunksF (k : Nat) : Nat → List Nat → List (List Nat) × List Nat
  | 0, data => ([], data)
  | fuel + 1, data =>
    if k ≤ data.length && k ≠ 0 then
      let rest := chunksF k fuel (data.drop k)
      (data.take k :: rest.1, rest.2)
    else ([], data)

/-- Complete `k`-chunks of a buffer and the remainder. -/
def chunksOf (k : Nat) (data : List Nat) : List (List Nat) × List Nat :=
  chunksF k (data.length + 1) data

/-- The name bytes `PLAYPAL`. -/
def playpalName : List Nat := [80, 76, 65, 89, 80, 65, 76]

/-- A bank of color palettes (src/assets/palette.rs `PaletteBank`; the active
index starts unset and plays no part in loading). -/
structure PaletteBank where
  palettes : List (List Nat)
  deriving DecidableEq, Repr

/-- Embeds `PaletteBank::load` (src/assets/palette.rs lines 23-37): fetch the
`PLAYPAL` lump from the stack, require its size to be a multiple of 768
(`expect_size_multiple`), then split it into 768-byte palettes with
`chunks_exact` (which yields `size / 768` palettes). -/
def paletteBankLoad (w : Wad) : Except WErr PaletteBank :=
  match wadLump w playpalName with
  | .error e => .error e
  | .ok l =>
    if l.data.length % 768 = 0 then .ok ⟨(chunksOf 768 l.data).1⟩
    else .error (.badMultiple l.name l.data.length)

/-- A post: a vertical pixel run (src/assets/patch.rs `Post`). `y` is the
computed effective y offset, a u16 in the source. -/
structure Post where
  y : Nat
  pixels : List Nat
  deriving DecidableEq, Repr

/-- A decoded patch (src/assets/patch.rs `Patch`, minus the borrowed name). -/
structure Patch where
  width : Nat
  height : Nat
  x : Int
  y : Int
  columns : List (List Post)
  deriving DecidableEq, Repr

/-- Failure modes of `Patch::load`. `badLump` models `LoadError::BadLump`
(src/assets/error.rs), which covers both a cursor end-of-data and the
out-of-bounds pixel slice; after `explain` it becomes a malformed error.
`overflowPanic` models the u16 addition `last_y_offset + y_offset`
(src/assets/patch.rs line 168) exceeding 65535, which panics when overflow
checks are enabled (and wraps in release builds) — it is not an error the
function can return.  `fuelOut` is an artifact of the fuel encoding and is
proved unreachable below. -/
inductive PatchErr where
  | badLump
  | overflowPanic
  | fuelOut
  deriving DecidableEq, Repr

/-- The tall-patch effective offset of one post (src/assets/patch.rs lines
155-173): against the PREVIOUS POST'S EFFECTIVE offset `last`, a raw offset
that is less than or equal is added to it, otherwise it stands alone. -/
def effStep (last : Option Nat) (raw : Nat) : Nat :=
  match last with
  | none => raw
  | some l => if raw ≤ l then l + raw else raw

/-- Tells whether the u16 addition `last_y_offset + y_offset` of the
tall-patch branch would overflow (the branch runs only when `raw ≤ l`). -/
def overflowsU16 (last : Option Nat) (raw : Nat) : Bool :=
  match last with
  | none => false
  | some l => raw ≤ l && 65535 < l + raw

/-- Embeds the post loop of `Patch::read_column` (src/assets/patch.rs lines
147-190) over the bytes from the column offset to the end of the lump, with
explicit fuel (one unit per post; the loop consumes at least 4 bytes per post
so fuel `data.length + 1` suffices, proved below).  Per post: a u8 raw y
offset (255 terminates the column), the effective offset per `effStep` (with
the overflow of the u16 addition made explicit as `overflowsU16`), a u8
length, one unused byte, `length` pixel bytes checked against the end of the
lump (`lump.data().get(start..end)`), and one more unused byte. -/
def readPostsF : Nat → List Nat → Option Nat → Except PatchErr (List Post)
  | 0, _, _ => .error .fuelOut
  | _ + 1, [], _ => .error .badLump
  | fuel + 1, y0 :: rest, last =>
    let raw := y0 % 256
    if raw = 255 then .ok []
    else if overflowsU16 last raw then .error .overflowPanic
    else
      let eff := effStep last raw
      match rest with
      | len0 :: _unused1 :: rest2 =>
        let len := len0 % 256
        if len ≤ rest2.length then
          match rest2.drop len with
          | [] => .error .badLump
          | _unused2 :: rest3 =>
            match readPostsF fuel rest3 (some eff) with
            | .error e => .error e
            | .ok posts => .ok (⟨eff, rest2.take len⟩ :: posts)
        else .error .badLump
      | _ => .error .badLump

/-- One column read: seek to the column offset (`data.drop off`; an offset
past the end leaves nothing to read) and run the post loop with sufficient
fuel. -/
def readColumn (colData : List Nat) : Except PatchErr (List Post) :=
  readPostsF (colData.length + 1) colData none

/-- The column loop of `Patch::load`: for each column offset, seek and read. -/
def readColumns (data : List Nat) : List Nat → Except PatchErr (List (List Post))
  | [] => .ok []
  | off :: offs =>
    match readColumn (data.drop off) with
    | .error e => .error e
    | .ok posts =>
      match readColumns data offs with
      | .error e => .error e
      | .ok cols => .ok (posts :: cols)

/-- Embeds `Patch::load` (src/assets/patch.rs lines 107-145): header of u16 width,
u16 height, i16 y, i16 x (each individual header or column-offset read past
the end yields the same `BadLump`-mapped end-of-data error, collapsed here
into the two length guards); then `width` u32 column offsets; then the
columns.  The `Vec::with_capacity(width.clamp(0, 512))` calls allocate
capacity only and have no observable effect, so they have no counterpart
here. -/
def patchLoad (data : List Nat) : Except PatchErr Patch :=
  if data.length < 8 then .error .badLump
  else
    let width := u16At data 0
    if data.length < 8 + 4 * width then .error .badLump
    else
      let offs := (List.range width).map fun i => u32At data (8 + 4 * i)
      match readColumns data offs with
      | .error e => .error e
      | .ok cols =>
        .ok ⟨width, u16At data 2, i16At data 6, i16At data 4, cols⟩

/-- The column encoding of a list of raw y offsets as zero-length posts:
each post is (raw, length 0, unused, unused) and 255 terminates. -/
def columnBytes : List Nat → List Nat
  | [] => [255]
  | r :: rs => r :: 0 :: 0 :: 0 :: columnBytes rs

/-- The effective y offsets the source computes for a column of raw offsets,
threading the previous EFFECTIVE offset through `effStep`. -/
def tallEffs (last : Option Nat) : List Nat → List Nat
  | [] => []
  | r :: rs => effStep last r :: tallEffs (some (effStep last r)) rs

/-- Modelled from the spec: the tall-patch rule as the specification phrases
it, comparing each raw offset with the previous post's RAW offset and adding
the previous EFFECTIVE offset when not strictly greater.  The state is
(previous raw, previous effective).  Used only to compare the specification's
rule against the source's `effStep` rule. -/
def claimTallEffs (last : Option (Nat × Nat)) : List Nat → List Nat
  | [] => []
  | r :: rs =>
    let eff := match last with
      | none => r
      | some (praw, peff) => if r > praw then r else peff + r
    eff :: claimTallEffs (some (r, eff)) rs

/-- A map vertex (src/map/vertex.rs `Vertex`). -/
structure Vertex where
  x : Int
  y : Int
  deriving DecidableEq, Repr

/-- A map sector (src/map/sector.rs `Sector`). -/
structure Sector where
  floorHeight : Int
  ceilingHeight : Int
  floorFlat : List Nat
  ceilingFlat : List Nat
  lightLevel : Nat
  specialType : Nat
  tag : Nat
  deriving DecidableEq, Repr

/-- A map sidedef (src/map/sidedef.rs `Sidedef`). -/
structure Sidedef where
  xOffset : Int
  yOffset : Int
  upperTexture : Option (List Nat)
  lowerTexture : Option (List Nat)
  middleTexture : Option (List Nat)
  sector : Nat
  deriving DecidableEq, Repr

/-- A map linedef (src/map/linedef.rs `Linedef`). -/
structure Linedef where
  startVertex : Nat
  endVertex : Nat
  flags : Nat
  types : Nat
  tag : Nat
  rightSidedef : Nat
  leftSidedef : Option Nat
  deriving DecidableEq, Repr

/-- A loaded map (src/map/map.rs `Map`, minus the name and the opaque
THINGS placeholder). -/
structure GameMap where
  vertexes : List Vertex
  sidedefs : List Sidedef
  linedefs : List Linedef
  sectors : List Sector
  deriving DecidableEq, Repr

/-- Structured stand-ins for the malformed errors of the map loaders, each
naming the offending record index (and offending value) exactly as the
source's `format!` messages do. -/
inductive MapErr where
  | wrongName (expected : List Nat)
  | notEnoughData
  | badStartVertex (line v : Nat)
  | badEndVertex (line v : Nat)
  | missingRightSidedef (line : Nat)
  | badRightSidedef (line s : Nat)
  | badLeftSidedef (line s : Nat)
  | badSector (side sec : Nat)
  | badUpperTexture (side : Nat) (name : List Nat)
  | badLowerTexture (side : Nat) (name : List Nat)
  | badMiddleTexture (side : Nat) (name : List Nat)
  | badFloorFlat (sec : Nat) (name : List Nat)
  | badCeilingFlat (sec : Nat) (name : List Nat)
  deriving DecidableEq, Repr

/-- An 8-byte name field inside a record, as `Cursor::get_name` reads it
(src/wad/cursor.rs): 8 bytes split at the first NUL. -/
def recName (rec : List Nat) (i : Nat) : List Nat :=
  (((rec.drop i).take 8).map (· % 256)).takeWhile (· ≠ 0)

/-- The byte-list name `-`, a sidedef's "no texture" marker. -/
def dashName : List Nat := [45]

/-- Record loop of `Vertexes::load` (src/map/vertex.rs lines 26-31): 4-byte
records of i16 x, i16 y, no validation. -/
def processVertexes : List (List Nat) → List Vertex
  | [] => []
  | r :: rs => ⟨i16At r 0, i16At r 2⟩ :: processVertexes rs

/-- Record loop of `Sectors::load` (src/map/sector.rs lines 24-57): 26-byte
records; the floor and ceiling flat names must resolve in the flat bank
(`assets.flat_bank.get`), the u16 light level saturates to u8. -/
def processSectors (flats : List (List Nat)) :
    List (List Nat) → Nat → Except MapErr (List Sector)
  | [], _ => .ok []
  | r :: rs, idx =>
    let floorFlat := recName r 4
    if floorFlat ∉ flats then .error (.badFloorFlat idx floorFlat)
    else
      let ceilingFlat := recName r 12
      if ceilingFlat ∉ flats then .error (.badCeilingFlat idx ceilingFlat)
      else
        match processSectors flats rs (idx + 1) with
        | .error e => .error e
        | .ok ss =>
          .ok (⟨i16At r 0, i16At r 2, floorFlat, ceilingFlat,
            min (u16At r 20) 255, u16At r 22, u16At r 24⟩ :: ss)

/-- One texture-name field of a sidedef record (src/map/sidedef.rs lines
26-41): `-` means absent; otherwise the name must resolve in the texture
bank (`assets.texture_bank.get`). -/
def textureField (textures : List (List Nat)) (r : List Nat) (i : Nat) :
    Except (List Nat) (Option (List Nat)) :=
  let name := recName r i
  if name = dashName then .ok none
  else if name ∈ textures then .ok (some name)
  else .error name

/-- Record loop of `Sidedefs::load` (src/map/sidedef.rs lines 24-72):
30-byte records; the three texture names are checked in order (upper, lower,
middle), then the sector index against the sector count. -/
def processSidedefs (textures : List (List Nat)) (ns : Nat) :
    List (List Nat) → Nat → Except MapErr (List Sidedef)
  | [], _ => .ok []
  | r :: rs, idx =>
    match textureField textures r 4 with
    | .error name => .error (.badUpperTexture idx name)
    | .ok upper =>
      match textureField textures r 12 with
      | .error name => .error (.badLowerTexture idx name)
      | .ok lower =>
        match textureField textures r 20 with
        | .error name => .error (.badMiddleTexture idx name)
        | .ok middle =>
          let sec := u16At r 28
          if ns ≤ sec then .error (.badSector idx sec)
          else
            match processSidedefs textures ns rs (idx + 1) with
            | .error e => .error e
            | .ok ss =>
              .ok (⟨i16At r 0, i16At r 2, upper, lower, middle, sec⟩ :: ss)

/-- Record loop of `Linedefs::load` (src/map/linedef.rs lines 23-74):
14-byte records; the two vertex numbers are checked against the vertex
count, the right sidedef must be present (not 0xFFFF) and in range, the left
sidedef is optional (0xFFFF) but must be in range when present. -/
def processLinedefs (nv ns : Nat) :
    List (List Nat) → Nat → Except MapErr (List Linedef)
  | [], _ => .ok []
  | r :: rs, idx =>
    let sv := u16At r 0
    if nv ≤ sv then .error (.badStartVertex idx sv)
    else
      let ev := u16At r 2
      if nv ≤ ev then .error (.badEndVertex idx ev)
      else
        let right := u16At r 10
        if right = 65535 then .error (.missingRightSidedef idx)
        else if ns ≤ right then .error (.badRightSidedef idx right)
        else
          let left := u16At r 12
          if left ≠ 65535 && ns ≤ left then .error (.badLeftSidedef idx left)
          else
            let leftOpt := if left = 65535 then none else some left
            match processLinedefs nv ns rs (idx + 1) with
            | .error e => .error e
            | .ok ls =>
              .ok (⟨sv, ev, u16At r 4, u16At r 6, u16At r 8, right, leftOpt⟩ :: ls)

/-- The default lump handed back for an index outside the 11-lump block (the
source indexes a block of exactly 11 lumps, so this default never arises in
a run of `Map::load`). -/
def noLump : Lump := ⟨[], []⟩

/-- Shared shape of the four record loaders: the cursor loop checks
`need(k)` before each record and `done()` after the loop, so all complete
`k`-byte records are processed in order — the first invalid record aborts
with its own error — and the loop only then trips over a nonempty remainder
as "not enough data". -/
def recordsThen {α : Type} (k : Nat) (data : List Nat)
    (go : List (List Nat) → Except MapErr α) : Except MapErr α :=
  match go (chunksOf k data).1 with
  | .error e => .error e
  | .ok a => if (chunksOf k data).2 = [] then .ok a else .error .notEnoughData

/-- The name bytes `THINGS`. -/
def thingsName : List Nat := [84, 72, 73, 78, 71, 83]

/-- The name bytes `LINEDEFS`. -/
def linedefsName : List Nat := [76, 73, 78, 69, 68, 69, 70, 83]

/-- The name bytes `SIDEDEFS`. -/
def sidedefsName : List Nat := [83, 73, 68, 69, 68, 69, 70, 83]

/-- The name bytes `VERTEXES`. -/
def vertexesName : List Nat := [86, 69, 82, 84, 69, 88, 69, 83]

/-- The name bytes `SECTORS`. -/
def sectorsName : List Nat := [83, 69, 67, 84, 79, 82, 83]

/-- Embeds `Vertexes::load` (src/map/vertex.rs): lump 4 of the block,
`expect_name("VERTEXES")`, then the 4-byte record loop. -/
def vertexesLoad (lumps : List Lump) : Except MapErr (List Vertex) :=
  let l := lumps.getD 4 noLump
  if l.name ≠ vertexesName then .error (.wrongName vertexesName)
  else recordsThen 4 l.data fun rs => .ok (processVertexes rs)

/-- Embeds `Sectors::load` (src/map/sector.rs): lump 8 of the block,
`expect_name("SECTORS")`, then the 26-byte record loop. -/
def sectorsLoad (lumps : List Lump) (flats : List (List Nat)) :
    Except MapErr (List Sector) :=
  let l := lumps.getD 8 noLump
  if l.name ≠ sectorsName then .error (.wrongName sectorsName)
  else recordsThen 26 l.data fun rs => processSectors flats rs 0

/-- Embeds `Sidedefs::load` (src/map/sidedef.rs): lump 3 of the block,
`expect_name("SIDEDEFS")`, then the 30-byte record loop. -/
def sidedefsLoad (lumps : List Lump) (textures : List (List Nat)) (ns : Nat) :
    Except MapErr (List Sidedef) :=
  let l := lumps.getD 3 noLump
  if l.name ≠ sidedefsName then .error (.wrongName sidedefsName)
  else recordsThen 30 l.data fun rs => processSidedefs textures ns rs 0

/-- Embeds `Linedefs::load` (src/map/linedef.rs): lump 2 of the block,
`expect_name("LINEDEFS")`, then the 14-byte record loop. -/
def linedefsLoad (lumps : List Lump) (nv ns : Nat) : Except MapErr (List Linedef) :=
  let l := lumps.getD 2 noLump
  if l.name ≠ linedefsName then .error (.wrongName linedefsName)
  else recordsThen 14 l.data fun rs => processLinedefs nv ns rs 0

/-- Embeds the body of `Map::load` (src/map/map.rs lines 35-49) on an
11-lump block: check lump 1 is `THINGS` (its contents are an ignored
placeholder), then load vertexes, sectors (against the flat bank), sidedefs
(against the texture bank and the sector count), and linedefs (against the
vertex and sidedef counts), in the source's order. -/
def mapLoad (lumps : List Lump) (flats textures : List (List Nat)) :
    Except MapErr GameMap :=
  if (lumps.getD 1 noLump).name ≠ thingsName then .error (.wrongName thingsName)
  else
    match vertexesLoad lumps with
    | .error e => .error e
    | .ok vertexes =>
      match sectorsLoad lumps flats with
      | .error e => .error e
      | .ok sectors =>
        match sidedefsLoad lumps textures sectors.length with
        | .error e => .error e
        | .ok sidedefs =>
          match linedefsLoad lumps vertexes.length sidedefs.length with
          | .error e => .error e
          | .ok linedefs => .ok ⟨vertexes, sidedefs, linedefs, sectors⟩

/-- A 28-byte IWAD whose single lump `A` has offset 12 and size 16, so its
data extends exactly to the end of the file (12 + 16 = 28 = file length). -/
def wadEndExact : List Nat :=
  [73, 87, 65, 68, 1, 0, 0, 0, 12, 0, 0, 0,
   12, 0, 0, 0, 16, 0, 0, 0, 65, 0, 0, 0, 0, 0, 0, 0]

/-- A 44-byte IWAD with two empty lumps named `A` and `B` (the whole
directory), both at offset 12 with size 0. -/
def wadAB : List Nat :=
  [73, 87, 65, 68, 2, 0, 0, 0, 12, 0, 0, 0,
   12, 0, 0, 0, 0, 0, 0, 0, 65, 0, 0, 0, 0, 0, 0, 0,
   12, 0, 0, 0, 0, 0, 0, 0, 66, 0, 0, 0, 0, 0, 0, 0]

/-- The loaded form of `wadAB`. -/
def fileAB : WadFile :=
  ⟨wadAB, .iwad, [⟨12, 0, [65]⟩, ⟨12, 0, [66]⟩]⟩

/-- A 44-byte IWAD with two lumps both named `A`, both one byte at offset
12, hence byte-for-byte identical and nonempty. -/
def wadDup : List Nat :=
  [73, 87, 65, 68, 2, 0, 0, 0, 12, 0, 0, 0,
   12, 0, 0, 0, 1, 0, 0, 0, 65, 0, 0, 0, 0, 0, 0, 0,
   12, 0, 0, 0, 1, 0, 0, 0, 65, 0, 0, 0, 0, 0, 0, 0]

/-- The loaded form of `wadDup`. -/
def fileDup : WadFile :=
  ⟨wadDup, .iwad, [⟨12, 1, [65]⟩, ⟨12, 1, [65]⟩]⟩

/-- A 28-byte IWAD whose single lump is an empty `PLAYPAL` (offset 12,
size 0). -/
def wadPal : List Nat :=
  [73, 87, 65, 68, 1, 0, 0, 0, 12, 0, 0, 0,
   12, 0, 0, 0, 0, 0, 0, 0, 80, 76, 65, 89, 80, 65, 76, 0]

/-- The loaded form of `wadPal`. -/
def filePal : WadFile :=
  ⟨wadPal, .iwad, [⟨12, 0, playpalName⟩]⟩

/-- A stack holding only `filePal`. -/
def stackPal : Wad := ⟨filePal, []⟩

/-- A 29-byte IWAD whose single lump `A` holds the one byte 1. -/
def wadA1 : List Nat :=
  [73, 87, 65, 68, 1, 0, 0, 0, 13, 0, 0, 0, 1,
   12, 0, 0, 0, 1, 0, 0, 0, 65, 0, 0, 0, 0, 0, 0, 0]

/-- The loaded form of `wadA1`. -/
def fileA1 : WadFile := ⟨wadA1, .iwad, [⟨12, 1, [65]⟩]⟩

/-- A 29-byte PWAD whose single lump `A` holds the one byte 2. -/
def wadA2 : List Nat :=
  [80, 87, 65, 68, 1, 0, 0, 0, 13, 0, 0, 0, 2,
   12, 0, 0, 0, 1, 0, 0, 0, 65, 0, 0, 0, 0, 0, 0, 0]

/-- The loaded form of `wadA2`. -/
def fileA2 : WadFile := ⟨wadA2, .pwad, [⟨12, 1, [65]⟩]⟩

/-- A patch lump: width 1, height 1, one column at offset 12 holding 259
zero-length posts with raw y offset 254 each.  The 259th post drives the
accumulated effective offset past 65535 (254 * 258 = 65532, then
65532 + 254 = 65786), the u16 overflow of `last_y_offset + y_offset`. -/
def patchOverflowBytes : List Nat :=
  [1, 0, 1, 0, 0, 0, 0, 0] ++ [12, 0, 0, 0] ++
    (List.replicate 259 [254, 0, 0, 0]).flatten ++ [255]

/-- A patch lump: width 1, single column offset 100, far outside the
12-byte lump. -/
def patchSeekOutBytes : List Nat :=
  [1, 0, 1, 0, 0, 0, 0, 0] ++ [100, 0, 0, 0]

/-- A patch lump: width 1, column at offset 12, whose single post claims 5
pixel bytes but only 2 remain. -/
def patchOverrunBytes : List Nat :=
  [1, 0, 1, 0, 0, 0, 0, 0] ++ [12, 0, 0, 0] ++ [0, 5, 0, 1, 2]

/-- A patch lump: width 1, column at offset 12 holding one complete
zero-length post and then no 255 terminator. -/
def patchNoTermBytes : List Nat :=
  [1, 0, 1, 0, 0, 0, 0, 0] ++ [12, 0, 0, 0] ++ [0, 0, 0, 0]

/-- An 11-lump map block with one vertex, one sector (flat `F`), one sidedef
(middle texture `T`, sector 0) and one linedef (vertices 0-0, right sidedef
0, no left sidedef). -/
def demoLumps : List Lump :=
  [⟨[69, 49, 77, 49], []⟩,
   ⟨thingsName, []⟩,
   ⟨linedefsName, [0, 0, 0, 0, 0, 0, 0, 0, 0, 0, 0, 0, 255, 255]⟩,
   ⟨sidedefsName,
     [0, 0, 0, 0,
      45, 0, 0, 0, 0, 0, 0, 0,
      45, 0, 0, 0, 0, 0, 0, 0,
      84, 0, 0, 0, 0, 0, 0, 0,
      0, 0]⟩,
   ⟨vertexesName, [0, 0, 0, 0]⟩,
   ⟨[83, 69, 71, 83], []⟩,
   ⟨[83, 83, 69, 67, 84, 79, 82, 83], []⟩,
   ⟨[78, 79, 68, 69, 83], []⟩,
   ⟨sectorsName,
     [0, 0, 0, 0,
      70, 0, 0, 0, 0, 0, 0, 0,
      70, 0, 0, 0, 0, 0, 0, 0,
      0, 0, 0, 0, 0, 0]⟩,
   ⟨[82, 69, 74, 69, 67, 84], []⟩,
   ⟨[66, 76, 79, 67, 75, 77, 65, 80], []⟩]

/-- The flat bank for the demo block: the single name `F`. -/
def demoFlats : List (List Nat) := [[70]]

/-- The texture bank for the demo block: the single name `T`. -/
def demoTextures : List (List Nat) := [[84]]

/-- The map the demo block decodes to. -/
def demoMap : GameMap :=
  ⟨[⟨0, 0⟩],
   [⟨0, 0, none, none, some [84], 0⟩],
   [⟨0, 0, 0, 0, 0, 0, none⟩],
   [⟨0, 0, [70], [70], 0, 0, 0⟩]⟩

example : loadRaw wadAB = .ok fileAB := by decide
example : loadRaw wadDup = .ok fileDup := by decide
example : loadRaw wadPal = .ok filePal := by decide
example : loadRaw wadA1 = .ok fileA1 := by decide
example : loadRaw wadA2 = .ok fileA2 := by decide
example : (loadRaw wadEndExact).isOk = false := by decide
example : tryLumpIndex fileDup [65] = .ok (some 1) := by decide
example : mapLoad demoLumps demoFlats demoTextures = .ok demoMap := by decide
example : patchLoad patchSeekOutBytes = .error .badLump := by decide
example : patchLoad patchOverrunBytes = .error .badLump := by decide
example : patchLoad patchNoTermBytes = .error .badLump := by decide
example : paletteBankLoad stackPal = .ok ⟨[]⟩ := by decide
example : readColumn (columnBytes [10, 5, 12]) =
    .ok [⟨10, []⟩, ⟨15, []⟩, ⟨27, []⟩] := by decide

/-! Helper lemmas. -/

/-- Legal name characters are nonzero ASCII. -/
theorem aux_legalChar (c : Nat) (h : isLegalChar c = true) : c ≠ 0 ∧ c ≤ 127 := by
  simp [isLegalChar] at h
  omega

/-- takeWhile runs through a block whose elements all satisfy the predicate
and then stops at an immediately failing block. -/
theorem aux_takeWhile_append {p : Nat → Bool} (l m : List Nat)
    (h : ∀ a ∈ l, p a = true) (hm : m.takeWhile p = []) :
    (l ++ m).takeWhile p = l := by
  induction l with
  | nil => simpa using hm
  | cons a t ih =>
    have ha : p a = true := h a (by simp)
    simp only [List.cons_append, List.takeWhile_cons, ha, if_true]
    rw [ih fun b hb => h b (by simp [hb])]

/-- takeWhile of a NUL run under the nonzero predicate is empty. -/
theorem aux_takeWhile_replicate (k : Nat) :
    (List.replicate k 0).takeWhile (fun a => decide (a ≠ 0)) = [] := by
  cases k with
  | zero => rfl
  | succ n => simp [List.replicate_succ, List.takeWhile_cons]

/-- C9: parsing a legal name padded with trailing NULs to 8 bytes yields
exactly the original name — `parse_name` strips the padding and returns the
1..8 character prefix unchanged. -/
theorem c9_parse_name_roundtrip (name : List Nat) (h : isLegalName name = true) :
    parseName (padTo8 name) = .ok name := by
  have hall : ∀ a ∈ name, isLegalChar a = true := by
    simp [isLegalName] at h
    exact h.2
  have hstrip : (name ++ List.replicate (8 - name.length) 0).takeWhile
      (fun a => decide (a ≠ 0)) = name := by
    refine aux_takeWhile_append name _ (fun a ha => ?_) (aux_takeWhile_replicate _)
    have := aux_legalChar a (hall a ha)
    simp [this.1]
  have h1 : name.all (fun a => decide (a ≤ 127)) = true := by
    rw [List.all_eq_true]
    intro a ha
    have := aux_legalChar a (hall a ha)
    simp [this.2]
  have h2 : (List.replicate (8 - name.length) 0).all
      (fun a => decide (a ≤ 127)) = true := by
    rw [List.all_eq_true]
    intro a ha
    have : a = 0 := List.eq_of_mem_replicate ha
    simp [this]
  have hascii : (name ++ List.replicate (8 - name.length) 0).all
      (fun a => decide (a ≤ 127)) = true := by
    rw [List.all_append, h1, h2]
    rfl
  simp only [parseName, padTo8, hascii, if_true]
  rw [hstrip]

/-- C9 witness: the round trip on the concrete legal name `E1M1`. -/
theorem c9_witness :
    isLegalName [69, 49, 77, 49] = true ∧
    parseName (padTo8 [69, 49, 77, 49]) = .ok [69, 49, 77, 49] :=
  ⟨by decide, c9_parse_name_roundtrip [69, 49, 77, 49] (by decide)⟩

/-- Shape of a successful entry read: the parsed fields and the three
acceptance conditions of the source (legal name, offset strictly below the
buffer length, offset + size strictly below the buffer length). -/
theorem aux_readEntry_ok {raw cursor : List Nat} {loc : LumpLocation}
    (h : readEntry raw cursor = .ok loc) :
    isLegalName loc.name = true ∧ loc.offset < raw.length ∧
      loc.offset + loc.size < raw.length := by
  unfold readEntry at h
  split_ifs at h with h1 h2 h3 h4
  cases h
  dsimp only
  refine ⟨?_, by omega, by omega⟩
  simpa using h2

/-- Every entry of a successful directory loop satisfies the acceptance
conditions. -/
theorem aux_readEntries_ok (raw : List Nat) :
    ∀ (n : Nat) (cursor : List Nat) (locs : List LumpLocation),
      readEntries raw cursor n = .ok locs →
      ∀ loc ∈ locs, isLegalName loc.name = true ∧ loc.offset < raw.length ∧
        loc.offset + loc.size < raw.length := by
  intro n
  induction n with
  | zero =>
    intro cursor locs h loc hmem
    simp only [readEntries] at h
    cases h
    cases hmem
  | succ n ih =>
    intro cursor locs h loc hmem
    simp only [readEntries] at h
    cases h1 : readEntry raw cursor with
    | error e => rw [h1] at h; cases h
    | ok loc1 =>
      rw [h1] at h
      cases h2 : readEntries raw (cursor.drop 16) n with
      | error e => rw [h2] at h; cases h
      | ok locs1 =>
        rw [h2] at h
        cases h
        rcases List.mem_cons.mp hmem with rfl | hmem1
        · exact aux_readEntry_ok h1
        · exact ih (cursor.drop 16) locs1 h2 loc hmem1

/-- A successfully loaded file keeps its buffer and gets its directory from
the entry loop. -/
theorem aux_loadRaw_ok {raw : List Nat} {f : WadFile} (h : loadRaw raw = .ok f) :
    f.raw = raw ∧ ∃ count off, off ≤ raw.length ∧
      readEntries raw (raw.drop off) count = .ok f.locations := by
  unfold loadRaw at h
  cases h1 : readHeader raw with
  | error e => rw [h1] at h; cases h
  | ok hdr =>
    rw [h1] at h
    obtain ⟨kind, count, dirOff⟩ := hdr
    simp only at h
    cases h2 : readDirectory raw count dirOff with
    | error e => rw [h2] at h; cases h
    | ok locs =>
      rw [h2] at h
      cases h
      unfold readDirectory at h2
      split_ifs at h2 with hoff
      · exact ⟨rfl, count, dirOff, hoff, h2⟩

/-- C1 counterexample: a 28-byte archive whose single lump has a legal name
and `offset + size` equal to the buffer length — the claim says such an
archive loads, but `read_directory`'s strict `offset + size >= raw.len()`
check rejects it with a "bad size" error. -/
theorem c1_counterexample :
    isLegalName (entryName (wadEndExact.drop 12)) = true ∧
    u32At (wadEndExact.drop 12) 0 + u32At (wadEndExact.drop 12) 4 =
      wadEndExact.length ∧
    loadRaw wadEndExact = .error (.badSize [65] 16) :=
  ⟨by decide, by decide, by decide⟩

/-- C1 (amended): the directory loader accepts an entry exactly when its
name (up to the first NUL) is a legal lump name, its offset is strictly less
than the buffer length, and its offset + size is strictly less than the
buffer length; consequently every directory entry of a successfully loaded
archive satisfies `offset + size < buffer_length` (in particular `≤`).  An
archive whose last lump extends exactly to the end of the file is rejected
(see the counterexample). -/
theorem c1_directory_bounds :
    (∀ raw f, loadRaw raw = .ok f →
      ∀ loc ∈ f.locations,
        isLegalName loc.name = true ∧ loc.offset < raw.length ∧
        loc.offset + loc.size < raw.length ∧ loc.offset + loc.size ≤ raw.length) ∧
    (∀ raw cursor, (readEntry raw cursor).isOk = true ↔
      (16 ≤ cursor.length ∧ isLegalName (entryName cursor) = true ∧
        u32At cursor 0 < raw.length ∧
        u32At cursor 0 + u32At cursor 4 < raw.length)) := by
  constructor
  · intro raw f h loc hmem
    obtain ⟨-, count, off, -, hentries⟩ := aux_loadRaw_ok h
    have := aux_readEntries_ok raw count (raw.drop off) f.locations hentries loc hmem
    exact ⟨this.1, this.2.1, this.2.2, by omega⟩
  · intro raw cursor
    unfold readEntry
    split_ifs with h1 h2 h3 h4
    · simp only [Except.isOk, Except.toBool]
      constructor
      · intro h; cases h
      · intro h; omega
    · simp only [Except.isOk, Except.toBool]
      constructor
      · intro h; cases h
      · intro h
        rw [h.2.1] at h2
        cases h2
    · simp only [Except.isOk, Except.toBool]
      constructor
      · intro h; cases h
      · intro h; omega
    · simp only [Except.isOk, Except.toBool]
      constructor
      · intro h; cases h
      · intro h; omega
    · simp only [Except.isOk, Except.toBool]
      refine ⟨fun _ => ⟨by omega, ?_, by omega, by omega⟩, fun _ => trivial⟩
      simpa using h2

/-- C1 witness: the amended acceptance conditions and bounds on the loaded
two-lump archive `wadAB`. -/
theorem c1_witness :
    loadRaw wadAB = .ok fileAB ∧
    (isLegalName (⟨12, 0, [65]⟩ : LumpLocation).name = true ∧
      (12 : Nat) < wadAB.length ∧ 12 + 0 < wadAB.length ∧
      12 + 0 ≤ wadAB.length) :=
  ⟨by decide,
    by
      have := (c1_directory_bounds.1 wadAB fileAB (by decide)) ⟨12, 0, [65]⟩
        (by decide)
      simpa using this⟩

/-- C2 counterexample: in the two-lump archive `wadAB` the marker `A` is at
index 0 and exactly 2 lumps remain through the end of the directory, so the
claim says `lumps_following("A", 2)` returns the whole two-lump block; the
source instead errors, because its guard `start_index + size >=
self.lump_indices.len()` compares non-strictly (and against the
distinct-name count).  The earlier revision, which compares against the
total lump count but still non-strictly, errors on the same input. -/
theorem c2_counterexample :
    loadRaw wadAB = .ok fileAB ∧
    fileAB.locations.length = 2 ∧
    tryLumpIndex fileAB [65] = .ok (some 0) ∧
    tryLumpsFollowing fileAB [65] 2 = .value (.error (.missingLumps [65])) ∧
    tryLumpsFollowingOld fileAB [65] 2 = .value (.error (.missingLumps [65])) :=
  ⟨by decide, by decide, by decide, by decide, by decide⟩

/-- C2 (amended): `try_lumps_following(marker, size)` panics when
`size == 0`; with `size ≥ 1` it returns `none` when the marker is absent,
and when the marker resolves to index i it returns the block of exactly
`size` lumps starting at i precisely when `i + size` is STRICTLY below the
number of DISTINCT lump names, and errors with "missing lumps" otherwise
(so a block reaching the last lump is rejected).  The earlier revision in
src/assets/wad/file.rs behaves the same with the total lump count in place
of the distinct-name count. -/
theorem c2_lumps_following :
    (∀ f start, tryLumpsFollowing f start 0 = .panicked) ∧
    (∀ f start size, 0 < size → tryLumpIndex f start = .ok none →
      tryLumpsFollowing f start size = .value (.ok none)) ∧
    (∀ f start size i, 0 < size → tryLumpIndex f start = .ok (some i) →
      (i + size < distinctCount f →
        tryLumpsFollowing f start size =
          .value (.ok (some ((List.range' i size).map (readLump f)))) ∧
        ((List.range' i size).map (readLump f)).length = size) ∧
      (distinctCount f ≤ i + size →
        tryLumpsFollowing f start size =
          .value (.error (.missingLumps start)))) ∧
    (∀ f start size i, 0 < size → tryLumpIndex f start = .ok (some i) →
      (i + size < f.locations.length →
        tryLumpsFollowingOld f start size =
          .value (.ok (some ((List.range' i size).map (readLump f))))) ∧
      (f.locations.length ≤ i + size →
        tryLumpsFollowingOld f start size =
          .value (.error (.missingLumps start)))) := by
  refine ⟨fun f start => rfl, ?_, ?_, ?_⟩
  · intro f start size hs hidx
    unfold tryLumpsFollowing tryLumpsFollowingCore
    rw [hidx, if_neg (by omega)]
  · intro f start size i hs hidx
    constructor
    · intro hlt
      constructor
      · unfold tryLumpsFollowing tryLumpsFollowingCore
        rw [hidx, if_neg (by omega)]
        simp only [if_neg (by omega : ¬distinctCount f ≤ i + size)]
      · simp
    · intro hge
      unfold tryLumpsFollowing tryLumpsFollowingCore
      rw [hidx, if_neg (by omega)]
      simp only [if_pos hge]
  · intro f start size i hs hidx
    constructor
    · intro hlt
      unfold tryLumpsFollowingOld tryLumpsFollowingOldCore
      rw [hidx, if_neg (by omega)]
      simp only [if_neg (by omega : ¬f.locations.length ≤ i + size)]
    · intro hge
      unfold tryLumpsFollowingOld tryLumpsFollowingOldCore
      rw [hidx, if_neg (by omega)]
      simp only [if_pos hge]

/-- C2 witness: on `fileAB`, a block of size 1 at the marker `A` succeeds
(0 + 1 < 2 distinct names) and the panic and error branches fire as the
amended claim states. -/
theorem c2_witness :
    tryLumpIndex fileAB [65] = .ok (some 0) ∧
    tryLumpsFollowing fileAB [65] 1 =
      .value (.ok (some ((List.range' 0 1).map (readLump fileAB)))) :=
  ⟨by decide,
    ((c2_lumps_following.2.2.1 fileAB [65] 1 0 (by decide) (by decide)).1
      (by decide)).1⟩

/-- dedup_by with equality collapses the whole tail exactly when every
element equals the kept head. -/
theorem aux_dedupAdjGo_nil (a : List Nat) (l : List (List Nat)) :
    dedupAdjGo a l = [] ↔ ∀ x ∈ l, x = a := by
  induction l generalizing a with
  | nil => simp [dedupAdjGo]
  | cons b t ih =>
    by_cases hb : b = a
    · subst hb
      simp [dedupAdjGo, ih]
    · simp [dedupAdjGo, hb]

/-- C3: a lookup whose (uppercased) name matches no directory entry yields
`none`; a unique match yields its index; multiple matches compare the
referenced lumps byte-for-byte and return the LAST matching index when all
copies are identical and nonempty — otherwise the lookup fails with the
"found N times" error, N being the number of matches. -/
theorem c3_duplicate_lookup :
    (∀ f name, indicesOf f.locations (upperName name) = [] →
      tryLumpIndex f name = .ok none) ∧
    (∀ f name i, indicesOf f.locations (upperName name) = [i] →
      tryLumpIndex f name = .ok (some i)) ∧
    (∀ f name i j rest, indicesOf f.locations (upperName name) = i :: j :: rest →
      ((∀ d ∈ (i :: j :: rest).map (lumpData f), d = lumpData f i) →
        lumpData f i ≠ [] →
        tryLumpIndex f name = .ok (some ((i :: j :: rest).getLastD 0))) ∧
      (¬((∀ d ∈ (i :: j :: rest).map (lumpData f), d = lumpData f i) ∧
          lumpData f i ≠ []) →
        tryLumpIndex f name =
          .error (.foundTimes (upperName name) (i :: j :: rest).length))) := by
  refine ⟨?_, ?_, ?_⟩
  · intro f name h
    unfold tryLumpIndex
    rw [h]
  · intro f name i h
    unfold tryLumpIndex
    rw [h]
  · intro f name i j rest h
    have hded : dedupAdj ((i :: j :: rest).map (lumpData f)) =
        lumpData f i :: dedupAdjGo (lumpData f i) ((j :: rest).map (lumpData f)) := by
      simp [dedupAdj]
    constructor
    · intro hall hne
      have hnil : dedupAdjGo (lumpData f i) ((j :: rest).map (lumpData f)) = [] := by
        rw [aux_dedupAdjGo_nil]
        intro x hx
        exact hall x (by simp at hx ⊢; tauto)
      unfold tryLumpIndex
      rw [h]
      dsimp only
      rw [hded, hnil]
      simp [hne]
    · intro hnot
      unfold tryLumpIndex
      rw [h]
      dsimp only
      rw [hded]
      by_cases hg : dedupAdjGo (lumpData f i) ((j :: rest).map (lumpData f)) = []
      · have hn : lumpData f i = [] := by
          by_contra hne
          refine hnot ⟨?_, hne⟩
          intro d hd
          rcases List.mem_cons.mp hd with rfl | hd1
          · rfl
          · exact (aux_dedupAdjGo_nil _ _).mp hg d hd1
        rw [hg, hn]
        simp
      · simp only [List.map_cons] at hg
        simp [hg]

/-- C3 witness: in `wadDup` the name `A` matches entries 0 and 1 with
identical one-byte contents, so the lookup returns the last index 1. -/
theorem c3_witness :
    indicesOf fileDup.locations (upperName [65]) = [0, 1] ∧
    tryLumpIndex fileDup [65] = .ok (some ([0, 1].getLastD 0)) :=
  ⟨by decide,
    (c3_duplicate_lookup.2.2 fileDup [65] 0 1 [] (by decide)).1
      (by decide) (by decide)⟩

/-- Running the post loop over a column of zero-length posts with raw
offsets `rs` yields exactly the effective offsets `tallEffs` computes,
provided no raw offset is the 255 terminator and no accumulated effective
offset overflows a u16. -/
theorem aux_readPosts_column :
    ∀ (rs : List Nat) (last : Option Nat) (fuel : Nat),
      (columnBytes rs).length < fuel →
      rs.all (fun r => decide (r < 255)) = true →
      (tallEffs last rs).all (fun e => decide (e ≤ 65535)) = true →
      readPostsF fuel (columnBytes rs) last =
        .ok ((tallEffs last rs).map fun e => ⟨e, []⟩) := by
  intro rs
  induction rs with
  | nil =>
    intro last fuel hfuel _ _
    cases fuel with
    | zero => simp [columnBytes] at hfuel
    | succ k => simp [columnBytes, readPostsF, tallEffs]
  | cons r rs ih =>
    intro last fuel hfuel hraw heff
    cases fuel with
    | zero => simp [columnBytes] at hfuel
    | succ k =>
      have hr : r < 255 := by
        have := hraw
        simp [List.all_cons] at this
        exact this.1
    
      have hrawtl : rs.all (fun r => decide (r < 255)) = true := by
        simp [List.all_cons] at hraw
        rw [List.all_eq_true]
        intro a ha
        simp [hraw.2 a ha]
      have heffhd : effStep last r ≤ 65535 := by
        simp [tallEffs, List.all_cons] at heff
        exact heff.1
      have hefftl : (tallEffs (some (effStep last r)) rs).all
          (fun e => decide (e ≤ 65535)) = true := by
        simp [tallEffs, List.all_cons] at heff
        rw [List.all_eq_true]
        intro a ha
        simp [heff.2 a ha]
      have hrmod : r % 256 = r := Nat.mod_eq_of_lt (by omega)
      have hover : overflowsU16 last r = false := by
        cases last with
        | none => rfl
        | some l =>
          simp only [overflowsU16]
          by_cases hle : r ≤ l
          · have : effStep (some l) r = l + r := by simp [effStep, hle]
            rw [this] at heffhd
            simp [hle]
            omega
          · simp [hle]
      have hlen : (columnBytes rs).length < k := by
        simp [columnBytes] at hfuel ⊢
        omega
      simp only [columnBytes, readPostsF, hrmod, hover, if_neg (by omega : ¬r = 255),
        Bool.false_eq_true, if_false]
      simp only [List.length_cons, Nat.zero_mod, Nat.zero_le, if_pos, List.drop_zero,
        List.take_zero]
      rw [ih (some (effStep last r)) k hlen hrawtl hefftl]
      simp [tallEffs]

/-- C4 counterexample: on the raw offsets 10, 5, 12 the source computes
effective offsets 10, 15, 27 — for the third post it compares raw 12 with
the previous EFFECTIVE offset 15 and accumulates — while the claim's rule
(compare with the previous RAW offset 5; 12 > 5 stands alone) yields
10, 15, 12. -/
theorem c4_counterexample :
    readColumn (columnBytes [10, 5, 12]) =
      .ok [⟨10, []⟩, ⟨15, []⟩, ⟨27, []⟩] ∧
    claimTallEffs none [10, 5, 12] = [10, 15, 12] ∧
    ([10, 15, 27] : List Nat) ≠ [10, 15, 12] :=
  ⟨by decide, by decide, by decide⟩

/-- C4 (amended): a raw y-offset byte of 255 terminates the column, and a
post's effective y-offset equals the raw y-offset when it is the first post
or the raw y-offset is strictly greater than the PREVIOUS POST'S EFFECTIVE
y-offset; otherwise the effective y-offset is the previous post's effective
y-offset plus the raw y-offset (the `tallEffs` recurrence, which threads the
effective offset through `effStep`). -/
theorem c4_tall_patch :
    (∀ fuel data last, readPostsF (fuel + 1) (255 :: data) last = .ok []) ∧
    (∀ rs last fuel, (columnBytes rs).length < fuel →
      rs.all (fun r => decide (r < 255)) = true →
      (tallEffs last rs).all (fun e => decide (e ≤ 65535)) = true →
      readPostsF fuel (columnBytes rs) last =
        .ok ((tallEffs last rs).map fun e => ⟨e, []⟩)) ∧
    (∀ rs, rs.all (fun r => decide (r < 255)) = true →
      (tallEffs none rs).all (fun e => decide (e ≤ 65535)) = true →
      readColumn (columnBytes rs) =
        .ok ((tallEffs none rs).map fun e => ⟨e, []⟩)) := by
  refine ⟨?_, ?_, ?_⟩
  · intro fuel data last
    simp [readPostsF]
  · intro rs last fuel h1 h2 h3
    exact aux_readPosts_column rs last fuel h1 h2 h3
  · intro rs h2 h3
    exact aux_readPosts_column rs none ((columnBytes rs).length + 1)
      (by omega) h2 h3

/-- C4 witness: the amended recurrence evaluated on the raw offsets
10, 5, 12. -/
theorem c4_witness :
    ([10, 5, 12] : List Nat).all (fun r => decide (r < 255)) = true ∧
    readColumn (columnBytes [10, 5, 12]) =
      .ok ((tallEffs none [10, 5, 12]).map fun e => ⟨e, []⟩) :=
  ⟨by decide, c4_tall_patch.2.2 [10, 5, 12] (by decide) (by decide)⟩

/-- Patches whose try-lookup misses are skipped by the walk. -/
theorem aux_lookupList_none {α : Type} (tf : WadFile → Except WErr (Option α))
    (lf : WadFile → Except WErr α) (ini : WadFile) :
    ∀ (l rest : List WadFile), (∀ q ∈ l, tf q = .ok none) →
      lookupList tf lf ini (l ++ rest) = lookupList tf lf ini rest := by
  intro l
  induction l with
  | nil => intro rest _; rfl
  | cons p t ih =>
    intro rest hall
    have hp : tf p = .ok none := hall p (by simp)
    simp only [List.cons_append, lookupList, hp]
    exact ih rest fun q hq => hall q (by simp [hq])

/-- C5: for each stack lookup the patches are consulted from last-added to
first with the try-variant: if every patch misses, the initial archive's
lookup decides the result; if a patch hits and all later-added patches miss,
its value is returned; in particular, after `patch`ing a file that resolves
a lump the stack returns that file's lump, and patching a file that lacks
the lump leaves every lookup result unchanged — so a lump read resolves to
the last archive that contains it. -/
theorem c5_stack_lookup :
    (∀ (α : Type) (w : Wad) (tf : WadFile → Except WErr (Option α))
        (lf : WadFile → Except WErr α),
      (∀ p ∈ w.patches, tf p = .ok none) → wadLookup w tf lf = lf w.initial) ∧
    (∀ (α : Type) (w : Wad) (tf : WadFile → Except WErr (Option α))
        (lf : WadFile → Except WErr α) (p : WadFile) (v : α)
        (l1 l2 : List WadFile),
      w.patches = l1 ++ p :: l2 → tf p = .ok (some v) →
      (∀ q ∈ l2, tf q = .ok none) → wadLookup w tf lf = .ok v) ∧
    (∀ (w : Wad) (f : WadFile) (name : List Nat) (v : Lump),
      tryLump f name = .ok (some v) → wadLump (wadPatch w f) name = .ok v) ∧
    (∀ (w : Wad) (f : WadFile) (name : List Nat),
      tryLump f name = .ok none →
      wadLump (wadPatch w f) name = wadLump w name) ∧
    (∀ (w : Wad) (s e : List Nat),
      (∀ p ∈ w.patches, tryLumpsBetween p s e = .ok none) →
      wadLumpsBetween w s e = lumpsBetween w.initial s e) ∧
    (∀ (w : Wad) (start : List Nat) (size : Nat), size ≠ 0 →
      (∀ p ∈ w.patches, tryLumpsFollowingCore p start size = .ok none) →
      wadTryLumpsFollowing w start size =
        .value (tryLumpsFollowingCore w.initial start size)) := by
  refine ⟨?_, ?_, ?_, ?_, ?_, ?_⟩
  · intro α w tf lf hall
    unfold wadLookup
    have : w.patches.reverse = w.patches.reverse ++ [] := by simp
    rw [this, aux_lookupList_none tf lf w.initial w.patches.reverse []
      fun q hq => hall q (List.mem_reverse.mp hq)]
    rfl
  · intro α w tf lf p v l1 l2 hw hp hall
    unfold wadLookup
    rw [hw]
    have : (l1 ++ p :: l2).reverse = l2.reverse ++ p :: l1.reverse := by
      simp
    rw [this, aux_lookupList_none tf lf w.initial l2.reverse (p :: l1.reverse)
      fun q hq => hall q (List.mem_reverse.mp hq)]
    simp [lookupList, hp]
  · intro w f name v hv
    unfold wadLump wadLookup wadPatch
    simp only [List.reverse_append, List.reverse_cons, List.reverse_nil,
      List.nil_append, List.singleton_append]
    simp [lookupList, hv]
  · intro w f name hnone
    unfold wadLump wadLookup wadPatch
    simp only [List.reverse_append, List.reverse_cons, List.reverse_nil,
      List.nil_append, List.singleton_append]
    simp [lookupList, hnone]
  · intro w s e hall
    unfold wadLumpsBetween wadLookup
    have : w.patches.reverse = w.patches.reverse ++ [] := by simp
    rw [this, aux_lookupList_none _ _ w.initial w.patches.reverse []
      fun q hq => hall q (List.mem_reverse.mp hq)]
    rfl
  · intro w start size hsz hall
    unfold wadTryLumpsFollowing wadTryLookup wadLookup
    rw [if_neg hsz]
    have : w.patches.reverse = w.patches.reverse ++ [] := by simp
    rw [this, aux_lookupList_none _ _ w.initial w.patches.reverse []
      fun q hq => by
        show Except.map (Option.map some) (tryLumpsFollowingCore q start size) =
          Except.ok none
        rw [hall q (List.mem_reverse.mp hq)]
        rfl]
    rfl

/-- C5 witness: overlaying the one-lump initial archive `fileA1` with the
patch `fileA2`, whose lump `A` holds the byte 2, makes the stack resolve `A`
to the patch's lump. -/
theorem c5_witness :
    tryLump fileA2 [65] = .ok (some ⟨[65], [2]⟩) ∧
    wadLump (wadPatch ⟨fileA1, []⟩ fileA2) [65] = .ok ⟨[65], [2]⟩ :=
  ⟨by decide,
    c5_stack_lookup.2.2.1 ⟨fileA1, []⟩ fileA2 [65] ⟨[65], [2]⟩ (by decide)⟩

/-- C6: `lumps_between(start, end)` returns the inclusive block from the
start marker to the end marker when both resolve in order; when exactly one
resolves it errors "start without end" (or the reverse); when the start
index is after the end index it errors; and the try-variant returns
`Ok(None)` exactly when both marker lookups return `Ok(None)`. -/
theorem c6_lumps_between :
    (∀ f s e i j, tryLumpIndex f s = .ok (some i) →
      tryLumpIndex f e = .ok (some j) →
      (i ≤ j → tryLumpsBetween f s e =
        .ok (some ((List.range' i (j + 1 - i)).map (readLump f)))) ∧
      (j < i → tryLumpsBetween f s e = .error (.after s e))) ∧
    (∀ f s e i, tryLumpIndex f s = .ok (some i) →
      tryLumpIndex f e = .ok none →
      tryLumpsBetween f s e = .error (.without s e)) ∧
    (∀ f s e j, tryLumpIndex f s = .ok none →
      tryLumpIndex f e = .ok (some j) →
      tryLumpsBetween f s e = .error (.without e s)) ∧
    (∀ f s e, tryLumpsBetween f s e = .ok none ↔
      (tryLumpIndex f s = .ok none ∧ tryLumpIndex f e = .ok none)) := by
  refine ⟨?_, ?_, ?_, ?_⟩
  · intro f s e i j hi hj
    constructor
    · intro hle
      unfold tryLumpsBetween
      rw [hi, hj]
      simp only [if_neg (by omega : ¬i > j)]
    · intro hlt
      unfold tryLumpsBetween
      rw [hi, hj]
      simp only [if_pos (by omega : i > j)]
  · intro f s e i hi hj
    unfold tryLumpsBetween
    rw [hi, hj]
  · intro f s e j hi hj
    unfold tryLumpsBetween
    rw [hi, hj]
  · intro f s e
    constructor
    · intro h
      unfold tryLumpsBetween at h
      obtain ⟨rs, hi⟩ : ∃ x, tryLumpIndex f s = x := ⟨_, rfl⟩
      obtain ⟨re, hj⟩ : ∃ x, tryLumpIndex f e = x := ⟨_, rfl⟩
      rw [hi, hj] at h
      cases rs with
      | error ei => cases h
      | ok si =>
        cases re with
        | error ej => dsimp only at h; cases h
        | ok ej =>
          cases si with
          | none =>
            cases ej with
            | none => exact ⟨hi, hj⟩
            | some j => dsimp only at h; cases h
          | some i =>
            cases ej with
            | none => dsimp only at h; cases h
            | some j =>
              dsimp only at h
              by_cases hij : i > j
              · rw [if_pos hij] at h; cases h
              · rw [if_neg hij] at h; cases h
    · intro ⟨hi, hj⟩
      unfold tryLumpsBetween
      rw [hi, hj]

/-- C6 witness: in `fileAB` the markers `A` (index 0) and `B` (index 1)
resolve in order and the inclusive two-lump block is returned. -/
theorem c6_witness :
    tryLumpIndex fileAB [65] = .ok (some 0) ∧
    tryLumpsBetween fileAB [65] [66] =
      .ok (some ((List.range' 0 (1 + 1 - 0)).map (readLump fileAB))) :=
  ⟨by decide,
    (c6_lumps_between.1 fileAB [65] [66] 0 1 (by decide) (by decide)).1
      (by decide)⟩

/-- A successful record pass means the complete chunks were processed and the
remainder was empty. -/
theorem aux_recordsThen_ok {α : Type} {k : Nat} {data : List Nat}
    {go : List (List Nat) → Except MapErr α} {a : α}
    (h : recordsThen k data go = .ok a) : go (chunksOf k data).1 = .ok a := by
  unfold recordsThen at h
  obtain ⟨r, hr⟩ : ∃ x, go (chunksOf k data).1 = x := ⟨_, rfl⟩
  rw [hr] at h
  cases r with
  | error e => cases h
  | ok b =>
    split_ifs at h with hrem
    cases h
    exact hr

/-- Every linedef accepted by the record loop has in-range vertex and
sidedef references. -/
theorem aux_processLinedefs_ok (nv ns : Nat) :
    ∀ (rs : List (List Nat)) (idx : Nat) (lds : List Linedef),
      processLinedefs nv ns rs idx = .ok lds →
      ∀ ld ∈ lds, ld.startVertex < nv ∧ ld.endVertex < nv ∧
        ld.rightSidedef < ns ∧
        ∀ l, ld.leftSidedef = some l → l < ns := by
  intro rs
  induction rs with
  | nil =>
    intro idx lds h ld hmem
    simp only [processLinedefs] at h
    cases h
    cases hmem
  | cons r rest ih =>
    intro idx lds h ld hmem
    simp only [processLinedefs] at h
    split_ifs at h with h1 h2 h3 h4 h5 h6
    · obtain ⟨tl, htl⟩ : ∃ x, processLinedefs nv ns rest (idx + 1) = x := ⟨_, rfl⟩
      rw [htl] at h
      cases tl with
      | error e => cases h
      | ok ls =>
        cases h
        rcases List.mem_cons.mp hmem with rfl | hmem1
        · dsimp only
          refine ⟨by omega, by omega, by omega, ?_⟩
          intro l hl
          cases hl
        · exact ih (idx + 1) ls htl ld hmem1
    · obtain ⟨tl, htl⟩ : ∃ x, processLinedefs nv ns rest (idx + 1) = x := ⟨_, rfl⟩
      rw [htl] at h
      cases tl with
      | error e => cases h
      | ok ls =>
        cases h
        rcases List.mem_cons.mp hmem with rfl | hmem1
        · dsimp only
          refine ⟨by omega, by omega, by omega, ?_⟩
          intro l hl
          cases hl
          simp [h6] at h5
          omega
        · exact ih (idx + 1) ls htl ld hmem1

/-- A texture field that parses to a present name resolved in the bank. -/
theorem aux_textureField {textures : List (List Nat)} {r : List Nat} {i : Nat}
    {o : Option (List Nat)} {t : List Nat}
    (h : textureField textures r i = .ok o) (ht : o = some t) : t ∈ textures := by
  unfold textureField at h
  dsimp only at h
  split_ifs at h with h1 h2
  · cases h; cases ht
  · cases h
    cases ht
    exact h2

/-- Every sidedef accepted by the record loop has an in-range sector and
bank-resolved texture names. -/
theorem aux_processSidedefs_ok (textures : List (List Nat)) (ns : Nat) :
    ∀ (rs : List (List Nat)) (idx : Nat) (sds : List Sidedef),
      processSidedefs textures ns rs idx = .ok sds →
      ∀ sd ∈ sds, sd.sector < ns ∧
        (∀ t, sd.upperTexture = some t → t ∈ textures) ∧
        (∀ t, sd.lowerTexture = some t → t ∈ textures) ∧
        (∀ t, sd.middleTexture = some t → t ∈ textures) := by
  intro rs
  induction rs with
  | nil =>
    intro idx sds h sd hmem
    simp only [processSidedefs] at h
    cases h
    cases hmem
  | cons r rest ih =>
    intro idx sds h sd hmem
    simp only [processSidedefs] at h
    obtain ⟨u, hu⟩ : ∃ x, textureField textures r 4 = x := ⟨_, rfl⟩
    rw [hu] at h
    cases u with
    | error n => cases h
    | ok upper =>
      obtain ⟨lo, hlo⟩ : ∃ x, textureField textures r 12 = x := ⟨_, rfl⟩
      rw [hlo] at h
      cases lo with
      | error n => cases h
      | ok lower =>
        obtain ⟨mi, hmi⟩ : ∃ x, textureField textures r 20 = x := ⟨_, rfl⟩
        rw [hmi] at h
        cases mi with
        | error n => cases h
        | ok middle =>
          split_ifs at h with h1
          obtain ⟨tl, htl⟩ : ∃ x, processSidedefs textures ns rest (idx + 1) = x :=
            ⟨_, rfl⟩
          rw [htl] at h
          cases tl with
          | error e => cases h
          | ok ss =>
            cases h
            rcases List.mem_cons.mp hmem with rfl | hmem1
            · dsimp only
              refine ⟨by omega, ?_, ?_, ?_⟩
              · intro t ht
                exact aux_textureField hu ht
              · intro t ht
                exact aux_textureField hlo ht
              · intro t ht
                exact aux_textureField hmi ht
            · exact ih (idx + 1) ss htl sd hmem1

/-- Every sector accepted by the record loop has bank-resolved flats. -/
theorem aux_processSectors_ok (flats : List (List Nat)) :
    ∀ (rs : List (List Nat)) (idx : Nat) (ss : List Sector),
      processSectors flats rs idx = .ok ss →
      ∀ s ∈ ss, s.floorFlat ∈ flats ∧ s.ceilingFlat ∈ flats := by
  intro rs
  induction rs with
  | nil =>
    intro idx ss h s hmem
    simp only [processSectors] at h
    cases h
    cases hmem
  | cons r rest ih =>
    intro idx ss h s hmem
    simp only [processSectors] at h
    split_ifs at h with h1 h2
    obtain ⟨tl, htl⟩ : ∃ x, processSectors flats rest (idx + 1) = x := ⟨_, rfl⟩
    rw [htl] at h
    cases tl with
    | error e => cases h
    | ok ss1 =>
      cases h
      rcases List.mem_cons.mp hmem with rfl | hmem1
      · dsimp only
        exact ⟨by simpa using h1, by simpa using h2⟩
      · exact ih (idx + 1) ss1 htl s hmem1

/-- C7: in every successfully loaded map, each linedef's start and end
vertex indices are below the vertex count, its right sidedef is present and
below the sidedef count, and its left sidedef (0xFFFF meaning none) is below
the sidedef count when present; each sidedef's sector index is below the
sector count and its present (non `-`) texture names resolve in the texture
bank; each sector's floor and ceiling flat names resolve in the flat bank.
A violating record aborts the load with a malformed error naming the record,
as the closing concrete conjunct shows for linedef record 0. -/
theorem c7_map_crossrefs :
    (∀ (lumps : List Lump) (flats textures : List (List Nat)) (m : GameMap),
      mapLoad lumps flats textures = .ok m →
      (∀ ld ∈ m.linedefs,
        ld.startVertex < m.vertexes.length ∧ ld.endVertex < m.vertexes.length ∧
        ld.rightSidedef < m.sidedefs.length ∧
        ∀ l, ld.leftSidedef = some l → l < m.sidedefs.length) ∧
      (∀ sd ∈ m.sidedefs,
        sd.sector < m.sectors.length ∧
        (∀ t, sd.upperTexture = some t → t ∈ textures) ∧
        (∀ t, sd.lowerTexture = some t → t ∈ textures) ∧
        (∀ t, sd.middleTexture = some t → t ∈ textures)) ∧
      (∀ s ∈ m.sectors, s.floorFlat ∈ flats ∧ s.ceilingFlat ∈ flats)) ∧
    processLinedefs 0 1 [[0, 0, 0, 0, 0, 0, 0, 0, 0, 0, 0, 0, 0, 0]] 0 =
      .error (.badStartVertex 0 0) := by
  constructor
  · intro lumps flats textures m h
    unfold mapLoad at h
    split_ifs at h with hthings
    obtain ⟨rv, hv⟩ : ∃ x, vertexesLoad lumps = x := ⟨_, rfl⟩
    rw [hv] at h
    cases rv with
    | error e => cases h
    | ok vertexes =>
      dsimp only at h
      obtain ⟨rs, hs⟩ : ∃ x, sectorsLoad lumps flats = x := ⟨_, rfl⟩
      rw [hs] at h
      cases rs with
      | error e => cases h
      | ok sectors =>
        dsimp only at h
        obtain ⟨rd, hd⟩ : ∃ x, sidedefsLoad lumps textures sectors.length = x :=
          ⟨_, rfl⟩
        rw [hd] at h
        cases rd with
        | error e => cases h
        | ok sidedefs =>
          dsimp only at h
          obtain ⟨rl, hl⟩ : ∃ x,
              linedefsLoad lumps vertexes.length sidedefs.length = x := ⟨_, rfl⟩
          rw [hl] at h
          cases rl with
          | error e => cases h
          | ok linedefs =>
            cases h
            refine ⟨?_, ?_, ?_⟩
            · unfold linedefsLoad at hl
              dsimp only at hl
              split_ifs at hl with hn
              dsimp only
              exact aux_processLinedefs_ok vertexes.length sidedefs.length _ 0
                linedefs (aux_recordsThen_ok hl)
            · unfold sidedefsLoad at hd
              dsimp only at hd
              split_ifs at hd with hn
              dsimp only
              exact aux_processSidedefs_ok textures sectors.length _ 0
                sidedefs (aux_recordsThen_ok hd)
            · unfold sectorsLoad at hs
              dsimp only at hs
              split_ifs at hs with hn
              dsimp only
              exact aux_processSectors_ok flats _ 0 sectors
                (aux_recordsThen_ok hs)
  · decide

/-- C7 witness: the invariants instantiated on the one-of-each demo block. -/
theorem c7_witness :
    mapLoad demoLumps demoFlats demoTextures = .ok demoMap ∧
    ((⟨0, 0, 0, 0, 0, 0, none⟩ : Linedef).startVertex <
      demoMap.vertexes.length) :=
  ⟨by decide,
    ((c7_map_crossrefs.1 demoLumps demoFlats demoTextures demoMap
      (by decide)).1 ⟨0, 0, 0, 0, 0, 0, none⟩ (by decide)).1⟩

/-- With sufficient fuel the chunk splitter produces exactly
`length / k` complete chunks. -/
theorem aux_chunksF_count (k : Nat) (hk : 0 < k) :
    ∀ (fuel : Nat) (data : List Nat), data.length < fuel →
      ((chunksF k fuel data).1).length = data.length / k := by
  intro fuel
  induction fuel with
  | zero =>
    intro data h
    omega
  | succ n ih =>
    intro data h
    by_cases hle : k ≤ data.length
    · have hcond : (decide (k ≤ data.length) && decide (k ≠ 0)) = true := by
        simp [hle]
        omega
      simp only [chunksF, hcond, if_true, List.length_cons]
      rw [ih (data.drop k) (by simp; omega)]
      rw [List.length_drop]
      rw [Nat.div_eq data.length k]
      simp [hk, hle]
    · have hcond : (decide (k ≤ data.length) && decide (k ≠ 0)) = false := by
        simp [hle]
      simp only [chunksF, hcond, Bool.false_eq_true, if_false]
      rw [Nat.div_eq data.length k]
      simp [hle]

/-- C8 counterexample: a stack whose `PLAYPAL` lump is empty (0 bytes is a
multiple of 768) loads successfully into a palette bank with ZERO palettes,
so a successful load does not guarantee a non-empty bank. -/
theorem c8_counterexample :
    wadLump stackPal playpalName = .ok ⟨playpalName, []⟩ ∧
    paletteBankLoad stackPal = .ok ⟨[]⟩ ∧
    (⟨[]⟩ : PaletteBank).palettes.length = 0 :=
  ⟨by decide, by decide, by decide⟩

/-- C8 (amended): when the stack resolves `PLAYPAL` to a lump, the load
succeeds exactly when the lump's length is a multiple of 768, and then the
bank holds `length / 768` palettes — which is at least one exactly when the
lump is non-empty (so an empty `PLAYPAL` yields an empty bank). -/
theorem c8_palette_load :
    ∀ (w : Wad) (l : Lump), wadLump w playpalName = .ok l →
      ((paletteBankLoad w).isOk = true ↔ l.data.length % 768 = 0) ∧
      (∀ bank, paletteBankLoad w = .ok bank →
        bank.palettes.length = l.data.length / 768) ∧
      (∀ bank, paletteBankLoad w = .ok bank →
        (0 < bank.palettes.length ↔ 768 ≤ l.data.length)) := by
  intro w l h
  have hload : paletteBankLoad w =
      (if l.data.length % 768 = 0 then .ok ⟨(chunksOf 768 l.data).1⟩
        else .error (.badMultiple l.name l.data.length)) := by
    unfold paletteBankLoad
    rw [h]
  have hcount : ((chunksOf 768 l.data).1).length = l.data.length / 768 :=
    aux_chunksF_count 768 (by omega) (l.data.length + 1) l.data (by omega)
  refine ⟨?_, ?_, ?_⟩
  · rw [hload]
    split_ifs with hmul
    · simp [Except.isOk, Except.toBool, hmul]
    · simp [Except.isOk, Except.toBool, hmul]
  · intro bank hbank
    rw [hload] at hbank
    split_ifs at hbank with hmul
    cases hbank
    exact hcount
  · intro bank hbank
    rw [hload] at hbank
    split_ifs at hbank with hmul
    cases hbank
    dsimp only
    rw [hcount]
    constructor
    · intro hpos
      by_contra hlt
      rw [Nat.div_eq_of_lt (by omega)] at hpos
      omega
    · intro hge
      exact Nat.div_pos hge (by omega)

/-- C8 witness: the amended characterization on the empty-`PLAYPAL` stack:
the load succeeds since 0 is a multiple of 768. -/
theorem c8_witness :
    wadLump stackPal playpalName = .ok ⟨playpalName, []⟩ ∧
    ((paletteBankLoad stackPal).isOk = true ↔
      (Lump.mk playpalName []).data.length % 768 = 0) :=
  ⟨by decide, (c8_palette_load stackPal ⟨playpalName, []⟩ (by decide)).1⟩

/-- The post loop never exhausts its fuel when given more fuel than bytes:
each iteration consumes at least four bytes.  This is the termination
argument for `Patch::read_column`. -/
theorem aux_readPostsF_no_fuelOut :
    ∀ (fuel : Nat) (data : List Nat) (last : Option Nat),
      data.length < fuel → readPostsF fuel data last ≠ .error .fuelOut := by
  intro fuel
  induction fuel with
  | zero =>
    intro data last h
    omega
  | succ n ih =>
    intro data last h
    cases data with
    | nil => simp [readPostsF]
    | cons y0 rest =>
      simp only [readPostsF]
      by_cases h255 : y0 % 256 = 255
      · simp [h255]
      · rw [if_neg h255]
        by_cases hov : overflowsU16 last (y0 % 256) = true
        · simp [hov]
        · rw [if_neg hov]
          cases rest with
          | nil => simp
          | cons len0 rest1 =>
            cases rest1 with
            | nil => simp
            | cons u1 rest2 =>
              dsimp only
              by_cases hlen : len0 % 256 ≤ rest2.length
              · rw [if_pos hlen]
                cases hdrop : rest2.drop (len0 % 256) with
                | nil => simp
                | cons u2 rest3 =>
                  have hlt : rest3.length < n := by
                    have hgol := congrArg List.length hdrop
                    rw [List.length_drop] at hgol
                    simp only [List.length_cons] at h hgol ⊢
                    omega
                  cases hrec : readPostsF n rest3 (some (effStep last (y0 % 256))) with
                  | error e =>
                    have hne := ih rest3 (some (effStep last (y0 % 256))) hlt
                    rw [hrec] at hne
                    simp only [hrec]
                    intro hcontra
                    cases hcontra
                    exact hne rfl
                  | ok posts =>
                    simp [hrec]
              · rw [if_neg hlen]
                simp

set_option maxRecDepth 10000 in
/-- C10 counterexample: a 1049-byte patch lump that drives the tall-patch
u16 accumulation past 65535: `Patch::load` neither returns Ok nor a
malformed (`BadLump`) error — under overflow checks the addition
`last_y_offset + y_offset` panics (in release builds it wraps silently). -/
theorem c10_counterexample :
    patchLoad patchOverflowBytes = .error .overflowPanic ∧
    PatchErr.overflowPanic ≠ PatchErr.badLump ∧
    PatchErr.overflowPanic ≠ PatchErr.fuelOut :=
  ⟨by decide, by decide, by decide⟩

/-- C10 (amended): `Patch::load` reads no byte out of bounds, its post loop
terminates within `data.length` iterations, and — except for the u16
overflow panic exhibited in the counterexample — every malformed input is
rejected with an error: a truncated header, a column offset pointing outside
the lump, a post whose pixel run extends past the end of the lump, and a
column missing its 255 terminator.  The capacity clamp
`width.clamp(0, 512)` affects allocation only, never which inputs are
accepted. -/
theorem c10_patch_load_total :
    (∀ data, data.length < 8 → patchLoad data = .error .badLump) ∧
    (∀ fuel data last, data.length < fuel →
      readPostsF fuel data last ≠ .error .fuelOut) ∧
    patchLoad patchSeekOutBytes = .error .badLump ∧
    patchLoad patchOverrunBytes = .error .badLump ∧
    patchLoad patchNoTermBytes = .error .badLump := by
  refine ⟨?_, aux_readPostsF_no_fuelOut, by decide, by decide, by decide⟩
  intro data hlen
  unfold patchLoad
  rw [if_pos hlen]

/-- C10 witness: the truncated-header clause at the empty lump. -/
theorem c10_witness :
    ([] : List Nat).length < 8 ∧ patchLoad [] = .error .badLump :=
  ⟨by decide, c10_patch_load_total.1 [] (by decide)⟩
